import Mathlib

/-!
Shallow embedding of the grid / viewport math of `bevy_tiled_camera`.

Conventions of the embedding:
* Rust `f32` arithmetic is modelled by exact rationals (`ℚ`);
* `u32` by `ℕ` and `i32` by `ℤ` (no overflow occurs in the modelled ranges);
* Rust `i32` division (truncation toward zero) is `Int.tdiv`;
* Rust `f32::floor` is `Int.floor` on `ℚ`, and an `as u32` cast of an `f32`
  (truncate toward zero, saturating at 0) is `Int.toNat ∘ Int.floor`, which
  agrees with it on the whole range;
* fallible operations return `Option`.
-/

/-- glam `UVec2` (pair of `u32`). -/
structure UVec2 where
  x : ℕ
  y : ℕ
deriving DecidableEq, Repr

/-- glam `IVec2` (pair of `i32`). -/
structure IVec2 where
  x : ℤ
  y : ℤ
deriving DecidableEq, Repr

/-- glam `Vec2` (pair of `f32`, modelled by `ℚ`). -/
structure Vec2 where
  x : ℚ
  y : ℚ
deriving DecidableEq, Repr

/-- glam `Vec3` (triple of `f32`, modelled by `ℚ`). -/
structure Vec3 where
  x : ℚ
  y : ℚ
  z : ℚ
deriving DecidableEq, Repr

/-- `Vec3::truncate`: drop the z component. -/
def Vec3.truncate (v : Vec3) : Vec2 := ⟨v.x, v.y⟩

/-- `Vec2::extend`: append a z component. -/
def Vec2.extend (v : Vec2) (z : ℚ) : Vec3 := ⟨v.x, v.y, z⟩

/-- Componentwise `Vec2::floor` (each component replaced by its floor). -/
def Vec2.floorv (v : Vec2) : Vec2 := ⟨(⌊v.x⌋ : ℚ), (⌊v.y⌋ : ℚ)⟩

/-- Rust `f32 as u32`: truncation toward zero saturating at 0. -/
def f32_as_u32 (q : ℚ) : ℕ := (⌊q⌋).toNat

/-- `Vec2::as_uvec2`: per-component `as u32` cast. -/
def Vec2.as_uvec2 (v : Vec2) : UVec2 := ⟨f32_as_u32 v.x, f32_as_u32 v.y⟩

/-- Rust `f32::round`: round half away from zero. -/
def rust_round (q : ℚ) : ℚ :=
  if 0 ≤ q then (⌊q + 1/2⌋ : ℚ) else -(⌊-q + 1/2⌋ : ℚ)

/-- The camera entity's `GlobalTransform`; only the translation is consulted
by the grid math. -/
structure GlobalTransform where
  translation : Vec3
deriving DecidableEq, Repr

/-- `sized_grid.rs`: a fixed-size unit grid with a centering convention and a
parity-derived center offset. -/
structure SizedGrid where
  tile_count : UVec2
  center_offset : Vec2
  centered : Bool
deriving DecidableEq, Repr

/-- `SizedGrid::new`: centered grid; per axis the offset is
`Vec2::select((tile_count % 2).cmpeq(0), splat 0.5, ZERO)`, i.e. 1/2 on an
even axis and 0 on an odd one. -/
def SizedGrid.new (tile_count : UVec2) : SizedGrid :=
  { tile_count := tile_count
    center_offset :=
      ⟨if tile_count.x % 2 = 0 then 1/2 else 0,
       if tile_count.y % 2 = 0 then 1/2 else 0⟩
    centered := true }

/-- `SizedGrid::new_uncentered`: origin at the bottom-left tile;
`center_offset` is the constant `(0.5, 0.5)`. -/
def SizedGrid.new_uncentered (tile_count : UVec2) : SizedGrid :=
  { tile_count := tile_count
    center_offset := ⟨1/2, 1/2⟩
    centered := false }

/-- `SizedGrid::tile_offset`: `center_offset - (0.5, 0.5)`. -/
def SizedGrid.tile_offset (g : SizedGrid) : Vec2 :=
  ⟨g.center_offset.x - 1/2, g.center_offset.y - 1/2⟩

/-- `SizedGrid::tile_to_local`: `tile.as_vec2() + tile_offset()`. -/
def SizedGrid.tile_to_local (g : SizedGrid) (tile : IVec2) : Vec2 :=
  ⟨(tile.x : ℚ) + g.tile_offset.x, (tile.y : ℚ) + g.tile_offset.y⟩

/-- `SizedGrid::local_to_tile`: `(local - tile_offset()).floor().as_ivec2()`. -/
def SizedGrid.local_to_tile (g : SizedGrid) (lp : Vec2) : IVec2 :=
  ⟨⌊lp.x - g.tile_offset.x⌋, ⌊lp.y - g.tile_offset.y⌋⟩

/-- `SizedGrid::local_to_world`:
`(local_pos + transform.translation.truncate()).extend(0.0)`. -/
def SizedGrid.local_to_world (_g : SizedGrid) (t : GlobalTransform) (lp : Vec2) : Vec3 :=
  ⟨lp.x + t.translation.x, lp.y + t.translation.y, 0⟩

/-- `SizedGrid::world_to_local`:
`world_pos.truncate() - transform.translation.truncate()`. -/
def SizedGrid.world_to_local (_g : SizedGrid) (t : GlobalTransform) (wp : Vec3) : Vec2 :=
  ⟨wp.x - t.translation.x, wp.y - t.translation.y⟩

/-- `SizedGrid::tile_to_world_unchecked`. -/
def SizedGrid.tile_to_world_unchecked (g : SizedGrid) (t : GlobalTransform)
    (tile_pos : IVec2) : Vec3 :=
  g.local_to_world t (g.tile_to_local tile_pos)

/-- `SizedGrid::world_to_tile_unchecked`. -/
def SizedGrid.world_to_tile_unchecked (g : SizedGrid) (t : GlobalTransform)
    (world_pos : Vec3) : IVec2 :=
  g.local_to_tile (g.world_to_local t world_pos)

/-- `SizedGrid::tile_center_world_unchecked`: the tile's world position plus
`(0.5, 0.5)`, with z reset to 0. -/
def SizedGrid.tile_center_world_unchecked (g : SizedGrid) (t : GlobalTransform)
    (tile_pos : IVec2) : Vec3 :=
  let w := (g.tile_to_world_unchecked t tile_pos).truncate
  (Vec2.extend ⟨w.x + 1/2, w.y + 1/2⟩ 0)

/-- `SizedGrid::tile_in_bounds`: the valid index range is
`[-tile_count/2, -tile_count/2 + tile_count)` per axis when centered
(`i32` division, truncation) and `[0, tile_count)` when uncentered. -/
def SizedGrid.tile_in_bounds (g : SizedGrid) (tile_pos : IVec2) : Bool :=
  let bounds : IVec2 × IVec2 :=
    match g.centered with
    | true =>
        let lo : IVec2 :=
          ⟨Int.tdiv (-(g.tile_count.x : ℤ)) 2, Int.tdiv (-(g.tile_count.y : ℤ)) 2⟩
        (lo, ⟨lo.x + (g.tile_count.x : ℤ), lo.y + (g.tile_count.y : ℤ)⟩)
    | false => (⟨0, 0⟩, ⟨(g.tile_count.x : ℤ), (g.tile_count.y : ℤ)⟩)
  decide (bounds.1.x ≤ tile_pos.x ∧ bounds.1.y ≤ tile_pos.y
    ∧ tile_pos.x < bounds.2.x ∧ tile_pos.y < bounds.2.y)

/-- `SizedGrid::tile_to_world`: bounds-checked tile corner in world space. -/
def SizedGrid.tile_to_world (g : SizedGrid) (t : GlobalTransform)
    (tile_pos : IVec2) : Option Vec3 :=
  if !g.tile_in_bounds tile_pos then none
  else some (g.tile_to_world_unchecked t tile_pos)

/-- `SizedGrid::world_to_tile`: bounds-checked world position to tile index. -/
def SizedGrid.world_to_tile (g : SizedGrid) (t : GlobalTransform)
    (world_pos : Vec3) : Option IVec2 :=
  let tile_pos := g.world_to_tile_unchecked t world_pos
  if !g.tile_in_bounds tile_pos then none else some tile_pos

/-- `SizedGrid::tile_to_tile_center_world`: bounds-checked tile center. -/
def SizedGrid.tile_to_tile_center_world (g : SizedGrid) (t : GlobalTransform)
    (tile_pos : IVec2) : Option Vec3 :=
  if !g.tile_in_bounds tile_pos then none
  else some (g.tile_center_world_unchecked t tile_pos)

/-- `projection.rs` free function `center_offset`: `(0.5, 0.5)` when not
centered; otherwise 1/2 per even axis and 0 per odd axis. -/
def center_offset (centered : Bool) (size : UVec2) : Vec2 :=
  if !centered then ⟨1/2, 1/2⟩
  else ⟨if size.x % 2 = 0 then 1/2 else 0, if size.y % 2 = 0 then 1/2 else 0⟩

/-- The zoom computation of `TiledProjection::update` (`u32` arithmetic):
`target_size = tile_count * pixels_per_tile`,
`zoom = (window_size / target_size).max(UVec2::ONE)`, then
`self.zoom = zoom.min_element()`. -/
def TiledProjection.update_zoom (target_tile_count : UVec2) (pixels_per_tile : ℕ)
    (window_size : UVec2) : ℕ :=
  let target_size : UVec2 :=
    ⟨target_tile_count.x * pixels_per_tile, target_tile_count.y * pixels_per_tile⟩
  let zoom : UVec2 :=
    ⟨max (window_size.x / target_size.x) 1, max (window_size.y / target_size.y) 1⟩
  min zoom.x zoom.y

/-- `WorldSpace` (re-exported from `sark_grids::world_grid`). -/
inductive WorldSpace where
  | Units : WorldSpace
  | Pixels : WorldSpace
deriving DecidableEq, Repr

/-- Modelled from the spec: `sark_grids::world_grid::WorldGrid` comes from the
external `sark_grids` crate and is absent from this repository's sources.
Per spec section 4.3 and the `TiledCamera` call sites it stores the tile
count, pixels per tile and the world-space mode. -/
structure WorldGrid where
  tile_count : UVec2
  pixels_per_tile : UVec2
  world_space : WorldSpace
deriving DecidableEq, Repr

/-- Modelled from the spec: `WorldGrid::unit_grid` builds a grid in
`Units` world space. -/
def WorldGrid.unit_grid (tile_count pixels_per_tile : UVec2) : WorldGrid :=
  ⟨tile_count, pixels_per_tile, WorldSpace.Units⟩

/-- Modelled from the spec: `WorldGrid::pixel_grid` builds a grid in
`Pixels` world space. -/
def WorldGrid.pixel_grid (tile_count pixels_per_tile : UVec2) : WorldGrid :=
  ⟨tile_count, pixels_per_tile, WorldSpace.Pixels⟩

/-- Modelled from the spec: `WorldGrid::world_space_scale` (spec 4.3): 1 per
axis for `Units`, `pixels_per_tile` per axis for `Pixels`. -/
def WorldGrid.world_space_scale (g : WorldGrid) : Vec2 :=
  match g.world_space with
  | WorldSpace.Units => ⟨1, 1⟩
  | WorldSpace.Pixels => ⟨(g.pixels_per_tile.x : ℚ), (g.pixels_per_tile.y : ℚ)⟩

/-- Modelled from the spec: the parity center offset of the (centered)
`WorldGrid`, as in spec section 3. -/
def WorldGrid.center_offset (g : WorldGrid) : Vec2 :=
  ⟨if g.tile_count.x % 2 = 0 then 1/2 else 0,
   if g.tile_count.y % 2 = 0 then 1/2 else 0⟩

/-- Modelled from the spec: the tile corner offset, `center_offset - (0.5, 0.5)`. -/
def WorldGrid.tile_offset (g : WorldGrid) : Vec2 :=
  ⟨g.center_offset.x - 1/2, g.center_offset.y - 1/2⟩

/-- Modelled from the spec: `WorldGrid::pos_to_index` — never bounds-checked;
divide the local position by the world-space scale and take the floor of the
offset-corrected coordinate (spec sections 4.2 and 4.3; behaviour matches the
`world_to_index` unit tests in `lib.rs`). -/
def WorldGrid.pos_to_index (g : WorldGrid) (lp : Vec2) : IVec2 :=
  ⟨⌊lp.x / g.world_space_scale.x - g.tile_offset.x⌋,
   ⌊lp.y / g.world_space_scale.y - g.tile_offset.y⌋⟩

/-- The `TiledCamera` component: camera parameters plus the cached zoom and
viewport rectangle of the last viewport update. -/
structure TiledCamera where
  pixels_per_tile : UVec2
  tile_count : UVec2
  grid : WorldGrid
  zoom : ℕ
  vp_size : UVec2
  vp_pos : UVec2
deriving DecidableEq, Repr

/-- `TiledCamera::default`: 80x45 tiles at 8x8 pixels per tile, `Units`
world space, zoom 1, viewport size (1,1) at (0,0). -/
def TiledCamera.default : TiledCamera :=
  { pixels_per_tile := ⟨8, 8⟩
    tile_count := ⟨80, 45⟩
    grid := WorldGrid.unit_grid ⟨80, 45⟩ ⟨8, 8⟩
    zoom := 1
    vp_size := ⟨1, 1⟩
    vp_pos := ⟨0, 0⟩ }

/-- `TiledCamera::unit_cam`: stores the arguments and a `Units` grid;
the remaining fields come from `default`. -/
def TiledCamera.unit_cam (tile_count pixels_per_tile : UVec2) : TiledCamera :=
  { TiledCamera.default with
    pixels_per_tile := pixels_per_tile
    tile_count := tile_count
    grid := WorldGrid.unit_grid tile_count pixels_per_tile }

/-- `TiledCamera::pixel_cam`: stores the arguments and a `Pixels` grid;
the remaining fields come from `default`. -/
def TiledCamera.pixel_cam (tile_count pixels_per_tile : UVec2) : TiledCamera :=
  { TiledCamera.default with
    pixels_per_tile := pixels_per_tile
    tile_count := tile_count
    grid := WorldGrid.pixel_grid tile_count pixels_per_tile }

/-- `TiledCamera::target_resolution`: `pixels_per_tile * tile_count`. -/
def TiledCamera.target_resolution (c : TiledCamera) : UVec2 :=
  ⟨c.pixels_per_tile.x * c.tile_count.x, c.pixels_per_tile.y * c.tile_count.y⟩

/-- `TiledCamera::world_to_local`: subtract the camera translation. -/
def TiledCamera.world_to_local (_c : TiledCamera) (t : GlobalTransform)
    (world_pos : Vec2) : Vec2 :=
  ⟨world_pos.x - t.translation.x, world_pos.y - t.translation.y⟩

/-- `TiledCamera::world_to_index`: convert to camera-local space and delegate
to `WorldGrid::pos_to_index`; total, no bounds check, returns a bare index. -/
def TiledCamera.world_to_index (c : TiledCamera) (t : GlobalTransform)
    (world_pos : Vec2) : IVec2 :=
  c.grid.pos_to_index (c.world_to_local t world_pos)

/-- The values computed and cached by one run of `update_viewport`
(`lib.rs`): the local `f32` quantities (`zoomF`, `ortho_size`, `vp_sizeF`,
`vp_posF`, exact rationals here) and the values written back to the
`TiledCamera` (`zoom`, `vp_size`, `vp_pos`, after `as u32` casts). The
engine `Viewport` is written with only `physical_size`; the position write
is commented out in the source, so the viewport rectangle keeps the default
position `(0, 0)`. -/
structure ViewportUpdate where
  zoomF : ℚ
  ortho_size : ℚ
  vp_sizeF : Vec2
  vp_posF : Vec2
  zoom : ℕ
  vp_size : UVec2
  vp_pos : UVec2
  viewport_physical_size : UVec2
  viewport_physical_position : UVec2
deriving DecidableEq, Repr

/-- `update_viewport` (`lib.rs`): `tres = target_resolution`,
`zoom = (wres / tres).min_element().max(1.0)` in `f32`,
`ortho_size` = `tile_count.y` (`Units`) or `pixels_per_tile.y * zoom`
(`Pixels`), `vp_size = tres * zoom`,
`vp_pos = (if wres.cmple(tres).any() then ZERO else wres/2 - vp_size/2).floor()`,
then the cached fields are the `as u32` casts. -/
def update_viewport (tile_count pixels_per_tile : UVec2) (world_space : WorldSpace)
    (wres : UVec2) : ViewportUpdate :=
  let tres : Vec2 := ⟨(pixels_per_tile.x * tile_count.x : ℕ), (pixels_per_tile.y * tile_count.y : ℕ)⟩
  let wresF : Vec2 := ⟨(wres.x : ℚ), (wres.y : ℚ)⟩
  let zoom : ℚ := max (min (wresF.x / tres.x) (wresF.y / tres.y)) 1
  let ortho_size : ℚ :=
    match world_space with
    | WorldSpace.Units => (tile_count.y : ℚ)
    | WorldSpace.Pixels => (pixels_per_tile.y : ℚ) * zoom
  let vp_size : Vec2 := ⟨tres.x * zoom, tres.y * zoom⟩
  let vp_pos : Vec2 :=
    Vec2.floorv (if wresF.x ≤ tres.x ∨ wresF.y ≤ tres.y then ⟨0, 0⟩
      else ⟨wresF.x / 2 - vp_size.x / 2, wresF.y / 2 - vp_size.y / 2⟩)
  { zoomF := zoom
    ortho_size := ortho_size
    vp_sizeF := vp_size
    vp_posF := vp_pos
    zoom := f32_as_u32 zoom
    vp_size := vp_size.as_uvec2
    vp_pos := vp_pos.as_uvec2
    viewport_physical_size := vp_size.as_uvec2
    viewport_physical_position := ⟨0, 0⟩ }

/-- The engine-supplied camera matrix data consumed by
`TiledCamera::screen_to_world`: `ndc_to_world = view * proj⁻¹` and
`world_to_ndc = proj * view` as point transforms, plus the two projection
coefficients `projection[3][2]` and `projection[2][2]` used to derive the
near plane. -/
structure CameraMatrices where
  ndc_to_world : Vec3 → Vec3
  world_to_ndc : Vec3 → Vec3
  proj32 : ℚ
  proj22 : ℚ

/-- `TiledCamera::screen_to_world` (`lib.rs`): shift by the cached viewport
position, round, normalize over the cached viewport size into NDC, derive
the near plane from the projection coefficients, unproject, and scale by the
world-space scale. There is no bounds check: every branch returns `some`. -/
def TiledCamera.screen_to_world (c : TiledCamera) (m : CameraMatrices)
    (screen_pos : Vec2) : Option Vec2 :=
  let screen_size : Vec2 := ⟨(c.vp_size.x : ℚ), (c.vp_size.y : ℚ)⟩
  let sp : Vec2 := ⟨rust_round (screen_pos.x - c.vp_pos.x),
                    rust_round (screen_pos.y - c.vp_pos.y)⟩
  let cursor_ndc : Vec2 := ⟨sp.x / screen_size.x * 2 - 1, sp.y / screen_size.y * 2 - 1⟩
  let camera_near : ℚ := 2 * m.proj32 / (2 * m.proj22 - 2)
  let ndc_near : ℚ := (m.world_to_ndc ⟨0, 0, -camera_near⟩).z
  let cursor_pos_near : Vec3 := m.ndc_to_world ⟨cursor_ndc.x, cursor_ndc.y, ndc_near⟩
  some ⟨cursor_pos_near.x * c.grid.world_space_scale.x,
        cursor_pos_near.y * c.grid.world_space_scale.y⟩

/-- `TiledProjection::screen_to_world` (`projection.rs`): normalize the
screen position over the *window* size into NDC, reject values with
`ndc < -1` or `ndc >= 1` on either axis, then unproject `ndc.extend(-1.0)`
through the supplied `ndc_to_world` transform and zero the z component. -/
def TiledProjection.screen_to_world (ndc_to_world : Vec3 → Vec3)
    (window_size : Vec2) (screen_pos : Vec2) : Option Vec3 :=
  let ndc : Vec2 := ⟨screen_pos.x / window_size.x * 2 - 1,
                     screen_pos.y / window_size.y * 2 - 1⟩
  if (¬ (-1 ≤ ndc.x) ∨ ¬ (-1 ≤ ndc.y)) ∨ (¬ (ndc.x < 1) ∨ ¬ (ndc.y < 1)) then none
  else
    let world_pos := ndc_to_world ⟨ndc.x, ndc.y, -1⟩
    some ⟨world_pos.x, world_pos.y, 0⟩

/-! ## Helper lemmas -/
/-- Rust truncating division of a negated natural by 2 agrees with negated
natural floor division. -/
lemma tdiv_neg_natCast_two (n : ℕ) : Int.tdiv (-(n : ℤ)) 2 = -((n / 2 : ℕ) : ℤ) := by
  rw [Int.neg_tdiv]
  norm_cast

/-- Characterization of the centered bounds check: valid range is
`[-(tileCount/2), -(tileCount/2) + tileCount)` per axis. -/
lemma tile_in_bounds_new (tc : UVec2) (i : IVec2) :
    (SizedGrid.new tc).tile_in_bounds i = true ↔
      (-((tc.x / 2 : ℕ) : ℤ) ≤ i.x ∧ i.x < -((tc.x / 2 : ℕ) : ℤ) + tc.x
        ∧ -((tc.y / 2 : ℕ) : ℤ) ≤ i.y ∧ i.y < -((tc.y / 2 : ℕ) : ℤ) + tc.y) := by
  simp only [SizedGrid.new, SizedGrid.tile_in_bounds, tdiv_neg_natCast_two,
    decide_eq_true_eq]
  tauto

/-- Characterization of the uncentered bounds check: valid range is
`[0, tileCount)` per axis. -/
lemma tile_in_bounds_new_uncentered (tc : UVec2) (i : IVec2) :
    (SizedGrid.new_uncentered tc).tile_in_bounds i = true ↔
      (0 ≤ i.x ∧ i.x < tc.x ∧ 0 ≤ i.y ∧ i.y < tc.y) := by
  simp only [SizedGrid.new_uncentered, SizedGrid.tile_in_bounds,
    decide_eq_true_eq]
  tauto


/-- The checked position operations are `some` exactly on in-bounds indices. -/
lemma tile_to_world_ne_none (g : SizedGrid) (t : GlobalTransform) (i : IVec2) :
    g.tile_to_world t i ≠ none ↔ g.tile_in_bounds i = true := by
  unfold SizedGrid.tile_to_world
  cases h : g.tile_in_bounds i <;> simp [h]

/-- The checked tile-center operation is `some` exactly on in-bounds indices. -/
lemma tile_center_ne_none (g : SizedGrid) (t : GlobalTransform) (i : IVec2) :
    g.tile_to_tile_center_world t i ≠ none ↔ g.tile_in_bounds i = true := by
  unfold SizedGrid.tile_to_tile_center_world
  cases h : g.tile_in_bounds i <;> simp [h]

/-- Round trip of the unchecked conversions: the camera translation and the
tile offset cancel exactly, and the floor of an integer is itself. -/
lemma world_to_tile_unchecked_of_tile (g : SizedGrid) (t : GlobalTransform)
    (i : IVec2) :
    g.world_to_tile_unchecked t (g.tile_to_world_unchecked t i) = i := by
  unfold SizedGrid.world_to_tile_unchecked SizedGrid.tile_to_world_unchecked
    SizedGrid.local_to_tile SizedGrid.world_to_local SizedGrid.local_to_world
    SizedGrid.tile_to_local
  have hx : (i.x : ℚ) + g.tile_offset.x + t.translation.x - t.translation.x
      - g.tile_offset.x = (i.x : ℚ) := by ring
  have hy : (i.y : ℚ) + g.tile_offset.y + t.translation.y - t.translation.y
      - g.tile_offset.y = (i.y : ℚ) := by ring
  simp only [hx, hy, Int.floor_intCast]

/-- Floors commute with binary max on `ℚ`. -/
lemma floor_max_q (a b : ℚ) : ⌊max a b⌋ = max ⌊a⌋ ⌊b⌋ := by
  rcases le_total a b with h | h
  · rw [max_eq_right h, max_eq_right (Int.floor_le_floor h)]
  · rw [max_eq_left h, max_eq_left (Int.floor_le_floor h)]

/-- Floors commute with binary min on `ℚ`. -/
lemma floor_min_q (a b : ℚ) : ⌊min a b⌋ = min ⌊a⌋ ⌊b⌋ := by
  rcases le_total a b with h | h
  · rw [min_eq_left h, min_eq_left (Int.floor_le_floor h)]
  · rw [min_eq_right h, min_eq_right (Int.floor_le_floor h)]

/-- The floor of a quotient of natural casts is natural floor division. -/
lemma floor_natCast_div (m n : ℕ) : ⌊(m : ℚ) / (n : ℚ)⌋ = ((m / n : ℕ) : ℤ) := by
  have h := Rat.floor_intCast_div_natCast (m : ℤ) n
  push_cast at h ⊢
  rw [h]

/-- An `as u32` cast is bounded by any natural bounding the rational. -/
lemma f32_as_u32_le_natCast (q : ℚ) (n : ℕ) (h : q ≤ (n : ℚ)) :
    f32_as_u32 q ≤ n := by
  unfold f32_as_u32
  have hf := Int.floor_le_floor h
  rw [Int.floor_natCast] at hf
  omega

/-! ## Claim theorems -/

/-- C1: for every grid (centered or uncentered, any center offset), every
camera transform and every in-bounds tile index `i`, converting the index to
its world position with `tile_to_world` and back with `world_to_tile` yields
`some i`: the two operations are mutual inverses on in-bounds indices. -/
theorem C1_tile_world_round_trip (g : SizedGrid) (t : GlobalTransform)
    (i : IVec2) (h : g.tile_in_bounds i = true) :
    ((g.tile_to_world t i).bind (g.world_to_tile t)) = some i := by
  simp only [SizedGrid.tile_to_world, h, Bool.not_true, Bool.false_eq_true,
    if_false]
  simp only [Option.some_bind, SizedGrid.world_to_tile,
    world_to_tile_unchecked_of_tile, h, Bool.not_true, Bool.false_eq_true,
    if_false]

/-- Witness for C1 at the concrete centered 3x3 grid, identity transform and
index (0,0). -/
theorem C1_witness :
    (SizedGrid.new ⟨3, 3⟩).tile_in_bounds ⟨0, 0⟩ = true
    ∧ (((SizedGrid.new ⟨3, 3⟩).tile_to_world ⟨⟨0, 0, 0⟩⟩ ⟨0, 0⟩).bind
        ((SizedGrid.new ⟨3, 3⟩).world_to_tile ⟨⟨0, 0, 0⟩⟩)) = some ⟨0, 0⟩ :=
  ⟨by decide, C1_tile_world_round_trip (SizedGrid.new ⟨3, 3⟩) ⟨⟨0, 0, 0⟩⟩ ⟨0, 0⟩ (by decide)⟩

/-- C2: on a centered grid the per-axis center offset is 1/2 for an even
tile count and 0 for an odd one (both in `SizedGrid::new` and in the
`projection.rs` `center_offset` function); an uncentered grid places tile
index `i` at position `i` itself; consequently `tile_to_local (0,0)` on a
centered grid is 0 on an even axis (the 1/2 offset applies) and -1/2 on an
odd axis. -/
theorem C2_center_offset_parity (tc : UVec2) (i : IVec2) :
    ((SizedGrid.new tc).center_offset
        = ⟨if tc.x % 2 = 0 then 1/2 else 0, if tc.y % 2 = 0 then 1/2 else 0⟩
      ∧ center_offset true tc
        = ⟨if tc.x % 2 = 0 then 1/2 else 0, if tc.y % 2 = 0 then 1/2 else 0⟩)
    ∧ (SizedGrid.new_uncentered tc).tile_to_local i = ⟨(i.x : ℚ), (i.y : ℚ)⟩
    ∧ (SizedGrid.new tc).tile_to_local ⟨0, 0⟩
        = ⟨if tc.x % 2 = 0 then 0 else -(1/2), if tc.y % 2 = 0 then 0 else -(1/2)⟩ := by
  refine ⟨⟨rfl, rfl⟩, ?_, ?_⟩
  · simp [SizedGrid.new_uncentered, SizedGrid.tile_to_local, SizedGrid.tile_offset]
  · simp only [SizedGrid.new, SizedGrid.tile_to_local, SizedGrid.tile_offset,
      Vec2.mk.injEq]
    constructor <;> split_ifs <;> norm_num

/-- C4: the position-returning operations `tile_to_world` and
`tile_to_tile_center_world` return `some` exactly on the in-bounds indices:
per axis `[-(tileCount/2), -(tileCount/2) + tileCount)` for a centered grid
and `[0, tileCount)` for an uncentered one; in particular on a centered 3x3
grid the index (2,2) is rejected. -/
theorem C4_position_ops_none_iff_oob (tc : UVec2) (t : GlobalTransform) (i : IVec2) :
    ((SizedGrid.new tc).tile_to_world t i ≠ none
        ↔ (-((tc.x / 2 : ℕ) : ℤ) ≤ i.x ∧ i.x < -((tc.x / 2 : ℕ) : ℤ) + tc.x
            ∧ -((tc.y / 2 : ℕ) : ℤ) ≤ i.y ∧ i.y < -((tc.y / 2 : ℕ) : ℤ) + tc.y))
    ∧ ((SizedGrid.new tc).tile_to_tile_center_world t i ≠ none
        ↔ (-((tc.x / 2 : ℕ) : ℤ) ≤ i.x ∧ i.x < -((tc.x / 2 : ℕ) : ℤ) + tc.x
            ∧ -((tc.y / 2 : ℕ) : ℤ) ≤ i.y ∧ i.y < -((tc.y / 2 : ℕ) : ℤ) + tc.y))
    ∧ ((SizedGrid.new_uncentered tc).tile_to_world t i ≠ none
        ↔ (0 ≤ i.x ∧ i.x < tc.x ∧ 0 ≤ i.y ∧ i.y < tc.y))
    ∧ ((SizedGrid.new_uncentered tc).tile_to_tile_center_world t i ≠ none
        ↔ (0 ≤ i.x ∧ i.x < tc.x ∧ 0 ≤ i.y ∧ i.y < tc.y))
    ∧ (SizedGrid.new ⟨3, 3⟩).tile_to_world t ⟨2, 2⟩ = none := by
  refine ⟨?_, ?_, ?_, ?_, ?_⟩
  · rw [tile_to_world_ne_none, tile_in_bounds_new]
  · rw [tile_center_ne_none, tile_in_bounds_new]
  · rw [tile_to_world_ne_none, tile_in_bounds_new_uncentered]
  · rw [tile_center_ne_none, tile_in_bounds_new_uncentered]
  · have h : (SizedGrid.new ⟨3, 3⟩).tile_in_bounds ⟨2, 2⟩ = false := by decide
    simp [SizedGrid.tile_to_world, h]

/-- C5 counterexample: constructing a grid or camera with a zero tile count
and zero pixels per tile succeeds and stores the degenerate values; there is
no construction-time rejection. -/
theorem C5_counterexample :
    (SizedGrid.new ⟨0, 0⟩).tile_count = ⟨0, 0⟩
    ∧ (SizedGrid.new_uncentered ⟨0, 0⟩).tile_count = ⟨0, 0⟩
    ∧ (TiledCamera.unit_cam ⟨0, 0⟩ ⟨0, 0⟩).tile_count = ⟨0, 0⟩
    ∧ (TiledCamera.unit_cam ⟨0, 0⟩ ⟨0, 0⟩).pixels_per_tile = ⟨0, 0⟩
    ∧ (TiledCamera.pixel_cam ⟨0, 0⟩ ⟨0, 0⟩).pixels_per_tile = ⟨0, 0⟩ :=
  ⟨rfl, rfl, rfl, rfl, rfl⟩

/-- C5 amended: the constructors perform no validation at all — every tile
count and pixels-per-tile value, including zero components, is accepted and
stored unchanged (the degenerate values later reach the viewport
computation's divisions). -/
theorem C5_constructors_accept_all (tc ppt : UVec2) :
    (SizedGrid.new tc).tile_count = tc
    ∧ (SizedGrid.new_uncentered tc).tile_count = tc
    ∧ (TiledCamera.unit_cam tc ppt).tile_count = tc
    ∧ (TiledCamera.unit_cam tc ppt).pixels_per_tile = ppt
    ∧ (TiledCamera.pixel_cam tc ppt).tile_count = tc
    ∧ (TiledCamera.pixel_cam tc ppt).pixels_per_tile = ppt :=
  ⟨rfl, rfl, rfl, rfl, rfl, rfl⟩

/-- C3: the computed integer zoom equals
`max(1, min(floor(window.x / target.x), floor(window.y / target.y)))` — an
integer, at least 1, one single factor for both axes — both for the cached
`zoom` of `update_viewport` (`lib.rs`) and for `TiledProjection::update`
(`projection.rs`). -/
theorem C3_zoom_formula (ws : WorldSpace) (tc ppt wres : UVec2)
    (tc2 : UVec2) (ppt2 : ℕ) (win : UVec2)
    (hx : 0 < ppt.x * tc.x) (hy : 0 < ppt.y * tc.y)
    (hwx : 0 < wres.x) (hwy : 0 < wres.y)
    (hx2 : 0 < tc2.x * ppt2) (hy2 : 0 < tc2.y * ppt2)
    (hwx2 : 0 < win.x) (hwy2 : 0 < win.y) :
    ((update_viewport tc ppt ws wres).zoom
        = max 1 (min (wres.x / (ppt.x * tc.x)) (wres.y / (ppt.y * tc.y)))
      ∧ 1 ≤ (update_viewport tc ppt ws wres).zoom)
    ∧ (TiledProjection.update_zoom tc2 ppt2 win
        = max 1 (min (win.x / (tc2.x * ppt2)) (win.y / (tc2.y * ppt2)))
      ∧ 1 ≤ TiledProjection.update_zoom tc2 ppt2 win) := by
  have hlib : (update_viewport tc ppt ws wres).zoom
      = max 1 (min (wres.x / (ppt.x * tc.x)) (wres.y / (ppt.y * tc.y))) := by
    have e : (update_viewport tc ppt ws wres).zoom
        = (⌊max (min ((wres.x : ℚ) / ((ppt.x * tc.x : ℕ) : ℚ))
              ((wres.y : ℚ) / ((ppt.y * tc.y : ℕ) : ℚ))) 1⌋).toNat := rfl
    rw [e, floor_max_q, floor_min_q, floor_natCast_div, floor_natCast_div]
    have h1 : ⌊(1 : ℚ)⌋ = 1 := Int.floor_one
    rw [h1]
    generalize wres.x / (ppt.x * tc.x) = a
    generalize wres.y / (ppt.y * tc.y) = b
    omega
  have hproj : TiledProjection.update_zoom tc2 ppt2 win
      = max 1 (min (win.x / (tc2.x * ppt2)) (win.y / (tc2.y * ppt2))) := by
    show min (max (win.x / (tc2.x * ppt2)) 1) (max (win.y / (tc2.y * ppt2)) 1) = _
    generalize win.x / (tc2.x * ppt2) = a
    generalize win.y / (tc2.y * ppt2) = b
    omega
  exact ⟨⟨hlib, by rw [hlib]; exact Nat.le_max_left 1 _⟩,
         ⟨hproj, by rw [hproj]; exact Nat.le_max_left 1 _⟩⟩

/-- Witness for C3 at tile count (6,6), 10 pixels per tile and a 100x100
window: the zoom is clamped to 1. -/
theorem C3_witness :
    ((0 : ℕ) < 10 * 6 ∧ (0 : ℕ) < 100)
    ∧ (((update_viewport ⟨6, 6⟩ ⟨10, 10⟩ WorldSpace.Units ⟨100, 100⟩).zoom
          = max 1 (min (100 / (10 * 6)) (100 / (10 * 6)))
        ∧ 1 ≤ (update_viewport ⟨6, 6⟩ ⟨10, 10⟩ WorldSpace.Units ⟨100, 100⟩).zoom)
      ∧ (TiledProjection.update_zoom ⟨6, 6⟩ 10 ⟨100, 100⟩
          = max 1 (min (100 / (6 * 10)) (100 / (6 * 10)))
        ∧ 1 ≤ TiledProjection.update_zoom ⟨6, 6⟩ 10 ⟨100, 100⟩)) :=
  ⟨⟨by decide, by decide⟩,
    C3_zoom_formula WorldSpace.Units ⟨6, 6⟩ ⟨10, 10⟩ ⟨100, 100⟩ ⟨6, 6⟩ 10 ⟨100, 100⟩
      (by decide) (by decide) (by decide) (by decide)
      (by decide) (by decide) (by decide) (by decide)⟩

/-- C6 counterexample: with tile count (6,6), 10x10 pixels per tile, world
space `Pixels` and a 100x100 window, the orthographic size written by
`update_viewport` is `pixels_per_tile.y * zoom = 10 * (5/3) = 50/3`, not the
target resolution's y component `tile_count.y * pixels_per_tile.y = 60`. -/
theorem C6_counterexample :
    (update_viewport ⟨6, 6⟩ ⟨10, 10⟩ WorldSpace.Pixels ⟨100, 100⟩).ortho_size = 50/3
    ∧ (update_viewport ⟨6, 6⟩ ⟨10, 10⟩ WorldSpace.Pixels ⟨100, 100⟩).ortho_size
        ≠ ((6 : ℚ) * 10) := by
  have h : (update_viewport ⟨6, 6⟩ ⟨10, 10⟩ WorldSpace.Pixels ⟨100, 100⟩).ortho_size
      = 50/3 := by
    show (10 : ℚ) * max (min (((100 : ℕ) : ℚ) / ((10 * 6 : ℕ) : ℚ))
        (((100 : ℕ) : ℚ) / ((10 * 6 : ℕ) : ℚ))) 1 = 50/3
    norm_num [min_def, max_def]
  refine ⟨h, ?_⟩
  rw [h]
  norm_num

/-- C6 amended: the orthographic vertical size written on a viewport
recompute is `tile_count.y` in `Units` world space, and
`pixels_per_tile.y * zoom` in `Pixels` world space — where `zoom` is the
real-valued (unfloored) scale factor
`max(1, min(window.x/target.x, window.y/target.y))` — not the target
resolution's y component. -/
theorem C6_ortho_size (tc ppt wres : UVec2) (ws : WorldSpace) :
    (update_viewport tc ppt ws wres).ortho_size
      = match ws with
        | WorldSpace.Units => (tc.y : ℚ)
        | WorldSpace.Pixels =>
            (ppt.y : ℚ) * max 1 (min ((wres.x : ℚ) / ((ppt.x * tc.x : ℕ) : ℚ))
              ((wres.y : ℚ) / ((ppt.y * tc.y : ℕ) : ℚ))) := by
  cases ws
  · rfl
  · show (ppt.y : ℚ) * max (min ((wres.x : ℚ) / ((ppt.x * tc.x : ℕ) : ℚ))
        ((wres.y : ℚ) / ((ppt.y * tc.y : ℕ) : ℚ))) 1 = _
    rw [max_comm]

/-- C7 counterexample: with a 60x60 target resolution and a 30x100 window
(smaller than the target on x), the zoom clamps to 1 and the cached viewport
size is 60 on x, which exceeds the window's 30 pixels. -/
theorem C7_counterexample :
    (update_viewport ⟨1, 1⟩ ⟨60, 60⟩ WorldSpace.Units ⟨30, 100⟩).vp_size.x = 60
    ∧ ¬ ((update_viewport ⟨1, 1⟩ ⟨60, 60⟩ WorldSpace.Units ⟨30, 100⟩).vp_size.x ≤ 30) := by
  have h : (update_viewport ⟨1, 1⟩ ⟨60, 60⟩ WorldSpace.Units ⟨30, 100⟩).vp_size.x = 60 := by
    show f32_as_u32 (((60 * 1 : ℕ) : ℚ) * max (min (((30 : ℕ) : ℚ) / ((60 * 1 : ℕ) : ℚ))
        (((100 : ℕ) : ℚ) / ((60 * 1 : ℕ) : ℚ))) 1) = 60
    norm_num [f32_as_u32, min_def, max_def]
    omega
  refine ⟨h, ?_⟩
  rw [h]
  omega

/-- C7 amended: whenever the window is at least the target resolution on
both axes, the cached viewport size does not exceed the window on either
axis (when the window is smaller than the target on some axis, the clamp of
the zoom to 1 makes the viewport exceed the window there, as the
counterexample shows). -/
theorem C7_viewport_fits_window (tc ppt wres : UVec2) (ws : WorldSpace)
    (hx : 0 < ppt.x * tc.x) (hy : 0 < ppt.y * tc.y)
    (hwx : ppt.x * tc.x ≤ wres.x) (hwy : ppt.y * tc.y ≤ wres.y) :
    (update_viewport tc ppt ws wres).vp_size.x ≤ wres.x
    ∧ (update_viewport tc ppt ws wres).vp_size.y ≤ wres.y := by
  have htx0 : (0 : ℚ) < ((ppt.x * tc.x : ℕ) : ℚ) := by exact_mod_cast hx
  have hty0 : (0 : ℚ) < ((ppt.y * tc.y : ℕ) : ℚ) := by exact_mod_cast hy
  have hwx' : ((ppt.x * tc.x : ℕ) : ℚ) ≤ (wres.x : ℚ) := by exact_mod_cast hwx
  have hwy' : ((ppt.y * tc.y : ℕ) : ℚ) ≤ (wres.y : ℚ) := by exact_mod_cast hwy
  have h1x : (1 : ℚ) ≤ (wres.x : ℚ) / ((ppt.x * tc.x : ℕ) : ℚ) :=
    (one_le_div htx0).mpr hwx'
  have h1y : (1 : ℚ) ≤ (wres.y : ℚ) / ((ppt.y * tc.y : ℕ) : ℚ) :=
    (one_le_div hty0).mpr hwy'
  have hzoom : max (min ((wres.x : ℚ) / ((ppt.x * tc.x : ℕ) : ℚ))
        ((wres.y : ℚ) / ((ppt.y * tc.y : ℕ) : ℚ))) 1
      = min ((wres.x : ℚ) / ((ppt.x * tc.x : ℕ) : ℚ))
        ((wres.y : ℚ) / ((ppt.y * tc.y : ℕ) : ℚ)) :=
    max_eq_left (le_min h1x h1y)
  constructor
  · have e : (update_viewport tc ppt ws wres).vp_size.x
        = f32_as_u32 (((ppt.x * tc.x : ℕ) : ℚ)
            * max (min ((wres.x : ℚ) / ((ppt.x * tc.x : ℕ) : ℚ))
                ((wres.y : ℚ) / ((ppt.y * tc.y : ℕ) : ℚ))) 1) := rfl
    rw [e, hzoom]
    refine f32_as_u32_le_natCast _ _ ?_
    calc ((ppt.x * tc.x : ℕ) : ℚ)
          * min ((wres.x : ℚ) / ((ppt.x * tc.x : ℕ) : ℚ))
              ((wres.y : ℚ) / ((ppt.y * tc.y : ℕ) : ℚ))
        ≤ ((ppt.x * tc.x : ℕ) : ℚ) * ((wres.x : ℚ) / ((ppt.x * tc.x : ℕ) : ℚ)) :=
          mul_le_mul_of_nonneg_left (min_le_left _ _) (le_of_lt htx0)
      _ = (wres.x : ℚ) := by rw [mul_comm, div_mul_cancel₀ _ (ne_of_gt htx0)]
  · have e : (update_viewport tc ppt ws wres).vp_size.y
        = f32_as_u32 (((ppt.y * tc.y : ℕ) : ℚ)
            * max (min ((wres.x : ℚ) / ((ppt.x * tc.x : ℕ) : ℚ))
                ((wres.y : ℚ) / ((ppt.y * tc.y : ℕ) : ℚ))) 1) := rfl
    rw [e, hzoom]
    refine f32_as_u32_le_natCast _ _ ?_
    calc ((ppt.y * tc.y : ℕ) : ℚ)
          * min ((wres.x : ℚ) / ((ppt.x * tc.x : ℕ) : ℚ))
              ((wres.y : ℚ) / ((ppt.y * tc.y : ℕ) : ℚ))
        ≤ ((ppt.y * tc.y : ℕ) : ℚ) * ((wres.y : ℚ) / ((ppt.y * tc.y : ℕ) : ℚ)) :=
          mul_le_mul_of_nonneg_left (min_le_right _ _) (le_of_lt hty0)
      _ = (wres.y : ℚ) := by rw [mul_comm, div_mul_cancel₀ _ (ne_of_gt hty0)]

/-- Witness for C7 amended at a 60x60 target in a 60x60 window. -/
theorem C7_witness :
    ((0 : ℕ) < 60 * 1 ∧ 60 * 1 ≤ 60)
    ∧ ((update_viewport ⟨1, 1⟩ ⟨60, 60⟩ WorldSpace.Units ⟨60, 60⟩).vp_size.x ≤ 60
      ∧ (update_viewport ⟨1, 1⟩ ⟨60, 60⟩ WorldSpace.Units ⟨60, 60⟩).vp_size.y ≤ 60) :=
  ⟨⟨by decide, by decide⟩,
    C7_viewport_fits_window ⟨1, 1⟩ ⟨60, 60⟩ ⟨60, 60⟩ WorldSpace.Units
      (by decide) (by decide) (by decide) (by decide)⟩

/-- C8 counterexample: with tile count (6,6), 10x10 pixels per tile and a
200x100 window, the cached zoom is 1 but the cached viewport size is
(100,100), not `targetResolution * zoom = (60,60)`; moreover the window's y
(100) equals the viewport's y, yet the cached position is (50,0), not the
origin the claim's placement rule would require. -/
theorem C8_counterexample :
    (update_viewport ⟨6, 6⟩ ⟨10, 10⟩ WorldSpace.Units ⟨200, 100⟩).zoom = 1
    ∧ (update_viewport ⟨6, 6⟩ ⟨10, 10⟩ WorldSpace.Units ⟨200, 100⟩).vp_size = ⟨100, 100⟩
    ∧ (update_viewport ⟨6, 6⟩ ⟨10, 10⟩ WorldSpace.Units ⟨200, 100⟩).vp_size ≠ ⟨60 * 1, 60 * 1⟩
    ∧ (update_viewport ⟨6, 6⟩ ⟨10, 10⟩ WorldSpace.Units ⟨200, 100⟩).vp_pos = ⟨50, 0⟩
    ∧ (update_viewport ⟨6, 6⟩ ⟨10, 10⟩ WorldSpace.Units ⟨200, 100⟩).vp_pos ≠ ⟨0, 0⟩ := by
  have hzoom : (update_viewport ⟨6, 6⟩ ⟨10, 10⟩ WorldSpace.Units ⟨200, 100⟩).zoom = 1 := by
    show f32_as_u32 (max (min (((200 : ℕ) : ℚ) / ((10 * 6 : ℕ) : ℚ))
        (((100 : ℕ) : ℚ) / ((10 * 6 : ℕ) : ℚ))) 1) = 1
    norm_num [f32_as_u32, min_def, max_def]
  have hsize : (update_viewport ⟨6, 6⟩ ⟨10, 10⟩ WorldSpace.Units ⟨200, 100⟩).vp_size
      = ⟨100, 100⟩ := by
    show Vec2.as_uvec2 ⟨((10 * 6 : ℕ) : ℚ) * max (min (((200 : ℕ) : ℚ) / ((10 * 6 : ℕ) : ℚ))
        (((100 : ℕ) : ℚ) / ((10 * 6 : ℕ) : ℚ))) 1,
        ((10 * 6 : ℕ) : ℚ) * max (min (((200 : ℕ) : ℚ) / ((10 * 6 : ℕ) : ℚ))
        (((100 : ℕ) : ℚ) / ((10 * 6 : ℕ) : ℚ))) 1⟩ = ⟨100, 100⟩
    norm_num [Vec2.as_uvec2, f32_as_u32, min_def, max_def, UVec2.mk.injEq]
    omega
  have hpos : (update_viewport ⟨6, 6⟩ ⟨10, 10⟩ WorldSpace.Units ⟨200, 100⟩).vp_pos
      = ⟨50, 0⟩ := by
    show Vec2.as_uvec2 (Vec2.floorv (if ((200 : ℕ) : ℚ) ≤ ((10 * 6 : ℕ) : ℚ)
          ∨ ((100 : ℕ) : ℚ) ≤ ((10 * 6 : ℕ) : ℚ) then ⟨0, 0⟩
        else ⟨((200 : ℕ) : ℚ) / 2 - ((10 * 6 : ℕ) : ℚ) * max (min (((200 : ℕ) : ℚ) / ((10 * 6 : ℕ) : ℚ))
            (((100 : ℕ) : ℚ) / ((10 * 6 : ℕ) : ℚ))) 1 / 2,
          ((100 : ℕ) : ℚ) / 2 - ((10 * 6 : ℕ) : ℚ) * max (min (((200 : ℕ) : ℚ) / ((10 * 6 : ℕ) : ℚ))
            (((100 : ℕ) : ℚ) / ((10 * 6 : ℕ) : ℚ))) 1 / 2⟩)) = ⟨50, 0⟩
    norm_num [Vec2.as_uvec2, Vec2.floorv, f32_as_u32, min_def, max_def, UVec2.mk.injEq]
    omega
  refine ⟨hzoom, hsize, ?_, hpos, ?_⟩
  · rw [hsize]
    decide
  · rw [hpos]
    decide

/-- C8 amended: the raw (`f32`) viewport size equals
`targetResolution * zoomF` where `zoomF` is the real-valued unfloored scale
factor (not the cached integer zoom); the raw position is `(0,0)` when the
window is less than or equal to the *target resolution* (not the viewport
size) on either axis, and `floor((window - viewportSize)/2)` per axis
otherwise; the cached values are the `as u32` casts of these. -/
theorem C8_viewport_size_and_placement (tc ppt wres : UVec2) (ws : WorldSpace) :
    (update_viewport tc ppt ws wres).vp_sizeF
        = ⟨((ppt.x * tc.x : ℕ) : ℚ) * (update_viewport tc ppt ws wres).zoomF,
           ((ppt.y * tc.y : ℕ) : ℚ) * (update_viewport tc ppt ws wres).zoomF⟩
    ∧ (update_viewport tc ppt ws wres).zoomF
        = max 1 (min ((wres.x : ℚ) / ((ppt.x * tc.x : ℕ) : ℚ))
            ((wres.y : ℚ) / ((ppt.y * tc.y : ℕ) : ℚ)))
    ∧ (update_viewport tc ppt ws wres).vp_posF
        = (if (wres.x : ℚ) ≤ ((ppt.x * tc.x : ℕ) : ℚ) ∨ (wres.y : ℚ) ≤ ((ppt.y * tc.y : ℕ) : ℚ)
           then ⟨0, 0⟩
           else ⟨(⌊((wres.x : ℚ) - (update_viewport tc ppt ws wres).vp_sizeF.x) / 2⌋ : ℚ),
                 (⌊((wres.y : ℚ) - (update_viewport tc ppt ws wres).vp_sizeF.y) / 2⌋ : ℚ)⟩)
    ∧ (update_viewport tc ppt ws wres).vp_size
        = (update_viewport tc ppt ws wres).vp_sizeF.as_uvec2
    ∧ (update_viewport tc ppt ws wres).vp_pos
        = (update_viewport tc ppt ws wres).vp_posF.as_uvec2 := by
  refine ⟨rfl, ?_, ?_, rfl, rfl⟩
  · show max (min ((wres.x : ℚ) / ((ppt.x * tc.x : ℕ) : ℚ))
        ((wres.y : ℚ) / ((ppt.y * tc.y : ℕ) : ℚ))) 1 = _
    rw [max_comm]
  · show Vec2.floorv (if (wres.x : ℚ) ≤ ((ppt.x * tc.x : ℕ) : ℚ)
          ∨ (wres.y : ℚ) ≤ ((ppt.y * tc.y : ℕ) : ℚ) then ⟨0, 0⟩
        else ⟨(wres.x : ℚ) / 2 - (update_viewport tc ppt ws wres).vp_sizeF.x / 2,
              (wres.y : ℚ) / 2 - (update_viewport tc ppt ws wres).vp_sizeF.y / 2⟩) = _
    split_ifs with h
    · simp [Vec2.floorv]
    · have ex : (wres.x : ℚ) / 2 - (update_viewport tc ppt ws wres).vp_sizeF.x / 2
          = ((wres.x : ℚ) - (update_viewport tc ppt ws wres).vp_sizeF.x) / 2 := by ring
      have ey : (wres.y : ℚ) / 2 - (update_viewport tc ppt ws wres).vp_sizeF.y / 2
          = ((wres.y : ℚ) - (update_viewport tc ppt ws wres).vp_sizeF.y) / 2 := by ring
      simp only [Vec2.floorv, ex, ey]

/-- `SizedGrid::world_to_tile` in checked form: it tests the floored nearest
index and returns it only when in bounds. -/
lemma world_to_tile_eq (g : SizedGrid) (t : GlobalTransform) (w : Vec3) :
    g.world_to_tile t w
      = (if g.tile_in_bounds (g.world_to_tile_unchecked t w)
         then some (g.world_to_tile_unchecked t w) else none) := by
  unfold SizedGrid.world_to_tile
  cases h : g.tile_in_bounds (g.world_to_tile_unchecked t w) <;> simp [h]

/-- C9 counterexample: `SizedGrid::world_to_tile` on a centered 3x3 grid at
the world position (10.5, 10.5) — outside the grid — returns `none`, not
the nearest index (11,11): the operation IS bounds-checked internally. -/
theorem C9_counterexample :
    (SizedGrid.new ⟨3, 3⟩).world_to_tile ⟨⟨0, 0, 0⟩⟩ ⟨21/2, 21/2, 0⟩ = none := by
  rw [world_to_tile_eq]
  have hu : (SizedGrid.new ⟨3, 3⟩).world_to_tile_unchecked ⟨⟨0, 0, 0⟩⟩ ⟨21/2, 21/2, 0⟩
      = ⟨11, 11⟩ := by
    norm_num [SizedGrid.new, SizedGrid.world_to_tile_unchecked,
      SizedGrid.world_to_local, SizedGrid.local_to_tile, SizedGrid.tile_offset,
      IVec2.mk.injEq]
  rw [hu]
  have hb : (SizedGrid.new ⟨3, 3⟩).tile_in_bounds ⟨11, 11⟩ = false := by decide
  rw [hb]
  simp

/-- C9 amended: `TiledCamera::world_to_index` is total and unchecked — for
every camera, transform and world position (also outside the grid) it
returns the bare floored nearest index — but `SizedGrid::world_to_tile` is
internally bounds-checked: it returns the nearest index when that index is
in bounds and `none` otherwise. -/
theorem C9_world_to_index_total_world_to_tile_checked (g : SizedGrid)
    (t : GlobalTransform) (w : Vec3) (c : TiledCamera) (t2 : GlobalTransform)
    (p : Vec2) :
    g.world_to_tile t w
      = (if g.tile_in_bounds (g.world_to_tile_unchecked t w)
         then some (g.world_to_tile_unchecked t w) else none)
    ∧ c.world_to_index t2 p
        = ⟨⌊(p.x - t2.translation.x) / c.grid.world_space_scale.x - c.grid.tile_offset.x⌋,
           ⌊(p.y - t2.translation.y) / c.grid.world_space_scale.y - c.grid.tile_offset.y⌋⟩ :=
  ⟨world_to_tile_eq g t w, rfl⟩

/-- C10 counterexample: `TiledCamera::screen_to_world` (`lib.rs`) with a
100x100 viewport at the origin, identity camera matrices and the screen
position (1000,1000) — whose viewport NDC value 19 is far outside [-1,1] —
still returns `some` (the world position (19,19)) instead of `none`: there
is no viewport bounds check. -/
theorem C10_counterexample :
    ({ TiledCamera.default with vp_size := ⟨100, 100⟩ } : TiledCamera).screen_to_world
        ⟨id, id, 0, 1⟩ ⟨1000, 1000⟩ = some ⟨19, 19⟩
    ∧ (1 : ℚ) < (1000 : ℚ) / 100 * 2 - 1 := by
  constructor
  · norm_num [TiledCamera.screen_to_world, TiledCamera.default, rust_round,
      WorldGrid.world_space_scale, WorldGrid.unit_grid, Vec2.mk.injEq]
  · norm_num

/-- C10 amended: `TiledCamera::screen_to_world` (`lib.rs`) performs no
viewport bounds check and returns `some` world position for every screen
position and camera state; only the superseded
`TiledProjection::screen_to_world` (`projection.rs`) rejects positions, and
it normalizes over the window size (not the viewport size), returning
`none` exactly when the window-normalized NDC value falls below -1 or
reaches 1 on some axis. -/
theorem C10_screen_to_world_no_viewport_check (c : TiledCamera)
    (m : CameraMatrices) (sp : Vec2) (ntw : Vec3 → Vec3) (win : Vec2)
    (sp2 : Vec2) :
    (c.screen_to_world m sp).isSome = true
    ∧ (TiledProjection.screen_to_world ntw win sp2 = none
        ↔ (sp2.x / win.x * 2 - 1 < -1 ∨ sp2.y / win.y * 2 - 1 < -1
            ∨ 1 ≤ sp2.x / win.x * 2 - 1 ∨ 1 ≤ sp2.y / win.y * 2 - 1)) := by
  constructor
  · rfl
  · simp only [TiledProjection.screen_to_world]
    split_ifs with h
    · refine iff_of_true rfl ?_
      rcases h with (h | h) | (h | h)
      · exact Or.inl (not_le.mp h)
      · exact Or.inr (Or.inl (not_le.mp h))
      · exact Or.inr (Or.inr (Or.inl (not_lt.mp h)))
      · exact Or.inr (Or.inr (Or.inr (not_lt.mp h)))
    · refine iff_of_false (by simp) ?_
      push_neg at h
      obtain ⟨⟨h1, h2⟩, h3, h4⟩ := h
      rintro (hr | hr | hr | hr)
      · exact absurd hr (not_lt.mpr h1)
      · exact absurd hr (not_lt.mpr h2)
      · exact absurd hr (not_le.mpr h3)
      · exact absurd hr (not_le.mpr h4)
